import Mathlib

/-!
Shallow embedding of the vmtest core (danobi/vmtest) for specification
checking. The definitions below are translated from the Rust sources:
`src/config.rs` (data model), `src/vmtest.rs` (`validate_config`),
`src/qemu.rs` (`guest_init_path`, `plan9_fs_args`, `run_in_vm`,
`mount_in_guest`, `connect_to_uds`, `Qemu::run`).

Machine integers (`u8`, `i64`) are modelled as `Nat`/`Int`; none of the
embedded code paths can overflow them. Fallible Rust functions returning
`anyhow::Result<T>` become `Except String T`. Stateful loops become
explicit recursion with the loop bounds of the source; interactions with
the outside world (guest agent replies, socket connection attempts, exit
codes of guest commands) are supplied as oracle parameters so that the
control flow of the source can be studied for every possible environment.
-/

namespace Vmtest

/-! ## Data model (`src/config.rs`) -/

/-- Config for a mount (`config.rs` struct `Mount`). -/
structure Mount where
  host_path : String
  writable : Bool
deriving DecidableEq

/-- VM config for a target (`config.rs` struct `VMConfig`). The `mounts`
map is modelled as an association list keyed by guest path. -/
structure VMConfig where
  num_cpus : Nat
  memory : String
  mounts : List (String × Mount)
  bios : Option String
  extra_args : List String
deriving DecidableEq

/-- The `Default` impl for `VMConfig` (`config.rs`). -/
def VMConfig.default : VMConfig :=
  { num_cpus := 2
    memory := "4G"
    mounts := []
    bios := none
    extra_args := [] }

/-- Config for a single target (`config.rs` struct `Target`). -/
structure Target where
  name : String
  image : Option String
  uefi : Bool
  kernel : Option String
  kernel_args : Option String
  rootfs : String
  arch : String
  command : String
  vm : VMConfig
deriving DecidableEq

/-- `Target::default_rootfs` (`config.rs`). -/
def Target.default_rootfs : String := "/"

/-- Config containing the full test matrix (`config.rs` struct `Config`). -/
structure Config where
  target : List Target
deriving DecidableEq

/-! ## TargetValidator (`src/vmtest.rs`, `validate_config`) -/

/-- The per-target body of the `validate_config` loop (`vmtest.rs` lines
17-58), linearised into the same sequence of checks and bailing with the
first failure. `image.as_os_str().is_empty()` on `Some(image)` is modelled
as `t.image = some ""`. -/
def validate_target (t : Target) : Except String Unit :=
  if t.name = "" then .error "name empty"
  else if t.image = none ∧ t.kernel = none then .error "must specify image or kernel"
  else if t.image ≠ none ∧ t.kernel ≠ none then .error "specified both image and kernel"
  else if t.uefi = true ∧ t.image = none then .error "must specify image with uefi"
  else if t.image = some "" then .error "has empty image path"
  else if t.kernel = some "" then .error "has empty kernel path"
  else if t.command = "" then .error "has empty command"
  else .ok ()

/-- `validate_config` iterates the targets in order and returns the first
failure (`vmtest.rs` lines 16-61). -/
def validate_targets : List Target → Except String Unit
  | [] => .ok ()
  | t :: rest =>
    match validate_target t with
    | .ok _ => validate_targets rest
    | .error e => .error e

/-- `validate_config` on a whole `Config` (`vmtest.rs` line 16). -/
def validate_config (c : Config) : Except String Unit :=
  validate_targets c.target

/-- The set of invariants `validate_config` actually checks, as a
decidable predicate: name non-empty, exactly one of image/kernel set,
`uefi` implies `image`, a set image path non-empty, a set kernel path
non-empty, command non-empty. -/
def checked_target_ok (t : Target) : Bool :=
  (t.name != "") &&
  (t.image.isSome != t.kernel.isSome) &&
  (!t.uefi || t.image.isSome) &&
  (t.image != some "") &&
  (t.kernel != some "") &&
  (t.command != "")

/-- A target that violates the spec invariant `kernel_args` ⇒ `kernel`
(it is an image target carrying `kernel_args`), yet passes every check
`validate_config` performs. -/
def kargs_without_kernel : Target :=
  { name := "t"
    image := some "img.raw"
    uefi := false
    kernel := none
    kernel_args := some "ro"
    rootfs := "/"
    arch := "x86_64"
    command := "true"
    vm := VMConfig.default }

theorem validate_target_ok_iff (t : Target) :
    validate_target t = .ok () ↔ checked_target_ok t = true := by
  unfold validate_target checked_target_ok
  rcases t with ⟨name, image, uefi, kernel, kargs, rootfs, arch, command, vm⟩
  simp only
  cases image <;> cases kernel <;> cases uefi <;>
    split_ifs <;> simp_all

theorem validate_targets_ok_iff (ts : List Target) :
    validate_targets ts = .ok () ↔ ts.all checked_target_ok = true := by
  induction ts with
  | nil => simp [validate_targets]
  | cons t rest ih =>
    simp only [validate_targets, List.all_cons, Bool.and_eq_true]
    cases h : validate_target t with
    | ok u =>
      cases u
      rw [validate_target_ok_iff] at h
      simp [h, ih]
    | error e =>
      have : ¬ checked_target_ok t = true := by
        intro hc
        rw [← validate_target_ok_iff] at hc
        simp [hc] at h
      simp [this]

/-- C2: the claim states that validation fails whenever a target violates
any invariant of spec §3, including `kernel_args` ⇒ `kernel`. It is false:
`validate_config` accepts a config whose only target is an image target
with `kernel_args` set (and no kernel). -/
theorem validate_config_accepts_kernel_args_without_kernel :
    kargs_without_kernel.kernel_args = some "ro"
    ∧ kargs_without_kernel.kernel = none
    ∧ kargs_without_kernel.image = some "img.raw"
    ∧ validate_config ⟨[kargs_without_kernel]⟩ = .ok () :=
  ⟨rfl, rfl, rfl, rfl⟩

/-- C2 (amended): `validate_config` succeeds exactly when every target
passes the checks it actually performs — name non-empty, exactly one of
image/kernel set, `uefi` ⇒ `image`, set image/kernel paths non-empty,
command non-empty. The spec invariants `bios` ⇒ `uefi` and `kernel_args`
⇒ `kernel` are not checked. -/
theorem validate_config_ok_iff (c : Config) :
    validate_config c = .ok () ↔ c.target.all checked_target_ok = true :=
  validate_targets_ok_iff c.target

/-! ## Output events (`src/output.rs`) and the run state machine
(`src/qemu.rs`, `Qemu::run`) -/

/-- Stage events posted by the orchestrator thread (`output.rs` enum
`Output`, stage variants only; the mid-stage `Boot`/`Setup`/`Command`
line events are produced by streamer threads and carry no stage
structure). `*End` results are modelled as `Bool` (`true` = `Ok`);
`CommandEnd` carries `Option Int` where `some code` models `Ok(code)`
and `none` models `Err`. -/
inductive Event where
  | bootStart
  | bootEnd (ok : Bool)
  | waitStart
  | waitEnd (ok : Bool)
  | setupStart
  | setupEnd (ok : Bool)
  | commandStart
  | commandEnd (r : Option Int)
deriving DecidableEq

/-- Environment of a single `Qemu::run` invocation: the outcome of each
fallible step the code performs, in program order (`qemu.rs` lines
925-1034). `extra_mounts_ok` lists the success of each `mount_in_guest`
call for the target's extra mounts, in iteration order. -/
structure RunEnv where
  spawn_ok : Bool
  wait_ok : Bool
  qmp_connect_ok : Bool
  qmp_handshake_ok : Bool
  qga_ok : Bool
  shared_mount_ok : Bool
  extra_mounts_ok : List Bool
  command_result : Option Int
deriving DecidableEq

/-- The sequence of stage events `Qemu::run` sends on the updates channel
(`qemu.rs` lines 925-1034), translated branch by branch. Note the
`wait_for_qemu` error branch (lines 940-944) sends `BootEnd(Err)` but has
no `return`, so execution falls through to the QMP connection attempt;
this is reproduced faithfully here. All other error branches return. The
trailing sync/quit steps send no events. -/
def qemu_run (env : RunEnv) : List Event :=
  Event.bootStart ::
  (if env.spawn_ok = false then [Event.bootEnd false]
   else
     (if env.wait_ok = false then [Event.bootEnd false] else []) ++
     (if env.qmp_connect_ok = false then [Event.bootEnd false]
      else if env.qmp_handshake_ok = false then [Event.bootEnd false]
      else if env.qga_ok = false then [Event.bootEnd false]
      else
        Event.bootEnd true :: Event.setupStart ::
        (if env.shared_mount_ok = false then [Event.setupEnd false]
         else if env.extra_mounts_ok.all (fun b => b) = false then [Event.setupEnd false]
         else
           Event.setupEnd true :: Event.commandStart ::
           [Event.commandEnd env.command_result])))

/-- C1: the claim states that the first `*End(Err)` is the last stage
event of a run, and in particular that after a `wait_for_qemu` failure no
QMP connection, second `BootEnd` or `SetupStart` follows. The code
violates this: its `wait_for_qemu` error branch is missing a `return`
(`qemu.rs` lines 940-944), so after `BootEnd(Err)` the run goes on to the
QMP connection. If that connection fails a second `BootEnd(Err)` is sent;
if the sockets appear late and the rest succeeds, the run proceeds through
`BootEnd(Ok)`, `SetupStart` and the whole command stage. -/
theorem qemu_run_continues_after_boot_end_err :
    qemu_run ⟨true, false, false, true, true, true, [], some 0⟩
      = [Event.bootStart, Event.bootEnd false, Event.bootEnd false]
    ∧ qemu_run ⟨true, false, true, true, true, true, [], some 0⟩
      = [Event.bootStart, Event.bootEnd false, Event.bootEnd true,
         Event.setupStart, Event.setupEnd true, Event.commandStart,
         Event.commandEnd (some 0)] :=
  ⟨rfl, rfl⟩

/-! ## Shared-folder export and guest mount (`src/qemu.rs`) -/

/-- `SHARED_9P_FS_MOUNT_TAG` (`qemu.rs` line 36). -/
def SHARED_9P_FS_MOUNT_TAG : String := "vmtest-shared"

/-- `SHARED_9P_FS_MOUNT_PATH` (`qemu.rs` line 39). -/
def SHARED_9P_FS_MOUNT_PATH : String := "/mnt/vmtest"

/-- `MOUNT_OPTS_9P_FS` (`qemu.rs` line 40). -/
def MOUNT_OPTS_9P_FS : String := "trans=virtio,cache=loose,msize=1048576"

/-- `plan9_fs_args` (`qemu.rs` lines 267-289): hypervisor arguments for a
9p export of `host_shared` under `mount_tag`. -/
def plan9_fs_args (host_shared id mount_tag : String) (ro : Bool) : List String :=
  ["-virtfs",
   "local,id=" ++ id ++ ",path=" ++
     (if host_shared = "" then "." else host_shared) ++
     ",mount_tag=" ++ mount_tag ++ ",security_model=none,multidevs=remap" ++
     (if ro then ",readonly=on" else "")]

/-- The standard shared-directory export added in `Qemu::new`
(`qemu.rs` lines 639-644). -/
def shared_export_args (host_shared : String) : List String :=
  plan9_fs_args host_shared "shared" SHARED_9P_FS_MOUNT_TAG false

/-- The (guest path, mount tag) pair `Qemu::run` passes to
`mount_in_guest` for the standard shared mount (`qemu.rs` line 986). -/
def run_shared_mount_call : String × String :=
  (SHARED_9P_FS_MOUNT_PATH, SHARED_9P_FS_MOUNT_TAG)

/-- C6: the claim states the shared host directory is exported under
mount tag `shared-mount`. It is false: the tag constant is
`vmtest-shared`, as both the hypervisor command line and the guest-side
mount call show. -/
theorem shared_tag_is_not_shared_mount :
    SHARED_9P_FS_MOUNT_TAG ≠ "shared-mount"
    ∧ shared_export_args "/work"
      = ["-virtfs",
         "local,id=shared,path=/work,mount_tag=vmtest-shared,security_model=none,multidevs=remap"]
    ∧ run_shared_mount_call.2 = "vmtest-shared" :=
  ⟨by decide, rfl, rfl⟩

/-- C6 (amended): for every non-empty host shared directory, the standard
export appears on the hypervisor command line with mount tag
`vmtest-shared`, and the guest-side mount performed during Setup mounts
that same tag at guest path `/mnt/vmtest`. -/
theorem shared_export_and_guest_mount (host_shared : String)
    (h : host_shared ≠ "") :
    shared_export_args host_shared
      = ["-virtfs",
         "local,id=shared,path=" ++ host_shared ++
           ",mount_tag=vmtest-shared,security_model=none,multidevs=remap"]
    ∧ run_shared_mount_call = ("/mnt/vmtest", SHARED_9P_FS_MOUNT_TAG)
    ∧ run_shared_mount_call.1 = "/mnt/vmtest"
    ∧ run_shared_mount_call.2 = SHARED_9P_FS_MOUNT_TAG := by
  refine ⟨?_, rfl, rfl, rfl⟩
  simp [shared_export_args, plan9_fs_args, SHARED_9P_FS_MOUNT_TAG, h,
    String.append_assoc]

/-- Witness for the amended C6 theorem at `host_shared = "/work"`. -/
theorem shared_export_and_guest_mount_witness :
    shared_export_args "/work"
      = ["-virtfs",
         "local,id=shared,path=" ++ "/work" ++
           ",mount_tag=vmtest-shared,security_model=none,multidevs=remap"]
    ∧ run_shared_mount_call = ("/mnt/vmtest", SHARED_9P_FS_MOUNT_TAG)
    ∧ run_shared_mount_call.1 = "/mnt/vmtest"
    ∧ run_shared_mount_call.2 = SHARED_9P_FS_MOUNT_TAG :=
  shared_export_and_guest_mount "/work" (by decide)

/-! ## InitStager path algebra (`src/qemu.rs`, `guest_init_path`)

Rust `std::path::Path` values are embedded as an absolute-path flag plus
the list of normal components, which is exactly what `Path::components`
yields for the paths involved (no `..` components arise: the inputs are
a `temp_dir` and a tempfile path under it). The `Path` operations used by
`guest_init_path` are translated on that representation. -/

/-- A path: `absolute` mirrors a leading `RootDir` component, `comps` the
normal components in order. -/
structure RPath where
  absolute : Bool
  comps : List String
deriving DecidableEq

/-- `Path::parent`: drops the file name; `None` for `/` and for the empty
path. -/
def RPath.parent (p : RPath) : Option RPath :=
  if p.comps.isEmpty then none else some ⟨p.absolute, p.comps.dropLast⟩

/-- `Path::strip_prefix("/")`: succeeds exactly on absolute paths and
returns the path made relative. -/
def RPath.stripRoot (p : RPath) : Option RPath :=
  if p.absolute then some ⟨false, p.comps⟩ else none

/-- `Path::ends_with`: component-wise suffix test. A relative needle
matches a component suffix; an absolute needle must match the whole
path. -/
def RPath.endsWith (p needle : RPath) : Bool :=
  if needle.absolute then p.absolute == true && p.comps == needle.comps
  else needle.comps.isSuffixOf p.comps

/-- `Path::file_name` for paths of normal components: the last
component. -/
def RPath.fileName (p : RPath) : Option String := p.comps.getLast?

/-- `PathBuf::push` of a single normal component. -/
def RPath.push (p : RPath) (c : String) : RPath :=
  ⟨p.absolute, p.comps ++ [c]⟩

/-- Splits a string at `/` separators, accumulating the current component
in reverse (helper for `parsePath`). -/
def splitSlashAux : List Char → List Char → List String
  | [], cur => [String.mk cur.reverse]
  | c :: rest, cur =>
    if c = '/' then String.mk cur.reverse :: splitSlashAux rest []
    else splitSlashAux rest (c :: cur)

/-- Parses a path string the way `Path::components` does for paths made
of normal components: a leading `/` marks the path absolute; empty and
`.` components are dropped (so trailing or repeated separators do not
matter). -/
def parsePath (s : String) : RPath :=
  ⟨s.data.head? == some '/',
   (splitSlashAux s.data []).filter (fun c => c != "" && c != ".")⟩

/-- `guest_init_path` (`qemu.rs` lines 106-128): requires
`guest_temp_dir` to be absolute and a component suffix of
`host_init_path.parent()`, then returns `guest_temp_dir` extended with
the file name of `host_init_path`. The final `error` branch models the
`file_name().unwrap()` of the source, which is unreachable once a parent
exists. -/
def guest_init_path (guest_temp_dir host_init_path : RPath) :
    Except String RPath :=
  match host_init_path.parent with
  | none => .error "host_init_path should have a parent"
  | some par =>
    match guest_temp_dir.stripRoot with
    | none => .error "guest_temp_dir should be an absolute path"
    | some rel =>
      if par.endsWith rel then
        match host_init_path.fileName with
        | some name => .ok (guest_temp_dir.push name)
        | none => .error "host_init_path has no file name"
      else .error "guest_temp_dir should be a suffix of the parent"

/-- Inversion for `RPath.parent` (helper). -/
theorem RPath.parent_eq_some {p par : RPath} (h : p.parent = some par) :
    p.comps ≠ [] ∧ par = ⟨p.absolute, p.comps.dropLast⟩ := by
  unfold RPath.parent at h
  split at h
  · cases h
  · next hne =>
    injection h with h
    exact ⟨by simpa using hne, h.symm⟩

/-- Inversion for `RPath.stripRoot` (helper). -/
theorem RPath.stripRoot_eq_some {tmp rel : RPath} (h : tmp.stripRoot = some rel) :
    tmp.absolute = true ∧ rel = ⟨false, tmp.comps⟩ := by
  unfold RPath.stripRoot at h
  split at h
  · next habs =>
    injection h with h
    exact ⟨habs, h.symm⟩
  · cases h

/-- C5: `guest_init_path tmp p` succeeds exactly when `tmp` is absolute
and a component suffix of the parent of `p`; on success the result is
`tmp` extended with the file name of `p`; and the three test vectors
from the spec hold, including the trailing-slash and root forms. -/
theorem guest_init_path_spec (tmp p : RPath) :
    ((∃ r, guest_init_path tmp p = .ok r) ↔
      (tmp.absolute = true ∧ p.comps ≠ [] ∧ tmp.comps <:+ p.comps.dropLast))
    ∧ (∀ r, guest_init_path tmp p = .ok r →
        ∃ name, p.comps.getLast? = some name ∧ r = tmp.push name)
    ∧ guest_init_path (parsePath "/tmp") (parsePath "/foo/tmp/bar.sh")
        = .ok (parsePath "/tmp/bar.sh")
    ∧ guest_init_path (parsePath "/tmp/") (parsePath "/foo/tmp/bar.sh")
        = .ok (parsePath "/tmp/bar.sh")
    ∧ guest_init_path (parsePath "/") (parsePath "/foo/tmp/bar.sh")
        = .ok (parsePath "/bar.sh") := by
  refine ⟨?_, ?_, rfl, rfl, rfl⟩
  · constructor
    · rintro ⟨r, hr⟩
      unfold guest_init_path at hr
      cases hp : p.parent with
      | none => simp [hp] at hr
      | some par =>
        simp only [hp] at hr
        cases hs : tmp.stripRoot with
        | none => simp [hs] at hr
        | some rel =>
          simp only [hs] at hr
          split at hr
          · next hsuf =>
            obtain ⟨hne, hpar⟩ := RPath.parent_eq_some hp
            obtain ⟨habs, hrel⟩ := RPath.stripRoot_eq_some hs
            refine ⟨habs, hne, ?_⟩
            rw [hpar, hrel] at hsuf
            unfold RPath.endsWith at hsuf
            simpa [List.isSuffixOf_iff_suffix] using hsuf
          · cases hr
    · rintro ⟨habs, hne, hsuf⟩
      have hpar : p.parent = some ⟨p.absolute, p.comps.dropLast⟩ := by
        unfold RPath.parent
        simp [List.isEmpty_iff, hne]
      have hstrip : tmp.stripRoot = some ⟨false, tmp.comps⟩ := by
        unfold RPath.stripRoot
        simp [habs]
      have hend : RPath.endsWith ⟨p.absolute, p.comps.dropLast⟩
          ⟨false, tmp.comps⟩ = true := by
        unfold RPath.endsWith
        simpa [List.isSuffixOf_iff_suffix] using hsuf
      have hlast : ∃ name, p.comps.getLast? = some name := by
        cases hg : p.comps.getLast? with
        | none => exact absurd (List.getLast?_eq_none_iff.mp hg) hne
        | some a => exact ⟨a, rfl⟩
      obtain ⟨name, hname⟩ := hlast
      refine ⟨tmp.push name, ?_⟩
      unfold guest_init_path
      rw [hpar, hstrip]
      simp only [hend, if_true]
      unfold RPath.fileName
      rw [hname]
  · intro r hr
    unfold guest_init_path at hr
    cases hp : p.parent with
    | none => simp [hp] at hr
    | some par =>
      simp only [hp] at hr
      cases hs : tmp.stripRoot with
      | none => simp [hs] at hr
      | some rel =>
        simp only [hs] at hr
        split at hr
        · cases hf : p.fileName with
          | none => simp [hf] at hr
          | some name =>
            simp only [hf] at hr
            injection hr with hr
            exact ⟨name, by simpa [RPath.fileName] using hf, hr.symm⟩
        · cases hr

/-- Witness for C5 at the first spec vector: the success condition holds
for `/tmp` against `/foo/tmp/bar.sh` and the join formula produces
`/tmp/bar.sh`. -/
theorem guest_init_path_spec_witness :
    (∃ r, guest_init_path (parsePath "/tmp") (parsePath "/foo/tmp/bar.sh")
       = .ok r)
    ∧ (∃ name,
        (parsePath "/foo/tmp/bar.sh").comps.getLast? = some name
        ∧ parsePath "/tmp/bar.sh" = (parsePath "/tmp").push name) := by
  have h := guest_init_path_spec (parsePath "/tmp") (parsePath "/foo/tmp/bar.sh")
  refine ⟨⟨parsePath "/tmp/bar.sh", h.2.2.1⟩, ?_⟩
  exact h.2.1 (parsePath "/tmp/bar.sh") h.2.2.1

/-! ## Guest mount with retry (`src/qemu.rs`, `Qemu::mount_in_guest`)

The exit codes of the successive guest `mount` invocations are supplied
as an oracle `rcs : Nat → Int` (`rcs n` is the exit code of the `n`-th
attempt, counted from 0). Besides the result, the model returns the list
of performed sleep durations (in seconds) and the number of attempts, so
the retry schedule can be stated. -/

/-- The `for i in 0..5` retry loop of `mount_in_guest` (`qemu.rs` lines
789-813). Arguments: current loop index `i`, current value of the `rc`
variable, remaining iterations. Returns (final `rc`, sleeps performed in
seconds, number of mount attempts made). On exit code 32 the loop sleeps
`i` seconds and continues; on any other code it breaks. -/
def mount_loop_go (rcs : Nat → Int) (rc : Int) (i : Nat) : Nat → Int × List Nat × Nat
  | 0 => (rc, [], 0)
  | f + 1 =>
    let rc2 := rcs i
    if rc2 = 32 then
      let rest := mount_loop_go rcs rc2 (i + 1) f
      (rest.1, i :: rest.2.1, rest.2.2 + 1)
    else (rc2, [], 1)

/-- The full retry loop: `rc` starts at 0, five iterations. -/
def mount_loop (rcs : Nat → Int) : Int × List Nat × Nat :=
  mount_loop_go rcs 0 0 5

/-- `mount_in_guest` (`qemu.rs` lines 771-819): `mkdir -p` first (fatal
on non-zero), then the mount retry loop, failing if the final exit code
is non-zero. -/
def mount_in_guest (mkdir_rc : Int) (rcs : Nat → Int) :
    Except String Unit × List Nat × Nat :=
  if mkdir_rc ≠ 0 then (.error "Failed to mkdir", [], 0)
  else
    let r := mount_loop rcs
    ((if r.1 ≠ 0 then .error "Failed to mount" else .ok ()), r.2.1, r.2.2)

theorem mount_loop_go_attempts_le (rcs : Nat → Int) :
    ∀ f i rc, (mount_loop_go rcs rc i f).2.2 ≤ f := by
  intro f
  induction f with
  | zero => intro i rc; simp [mount_loop_go]
  | succ f ih =>
    intro i rc
    simp only [mount_loop_go]
    split
    · simpa using ih (i + 1) (rcs i)
    · simp

theorem mount_loop_go_attempts_pos (rcs : Nat → Int) (f i : Nat) (rc : Int)
    (h : 1 ≤ f) : 1 ≤ (mount_loop_go rcs rc i f).2.2 := by
  cases f with
  | zero => omega
  | succ f =>
    simp only [mount_loop_go]
    split <;> simp

theorem mount_loop_go_prev32 (rcs : Nat → Int) :
    ∀ f i rc j, j + 1 < (mount_loop_go rcs rc i f).2.2 → rcs (i + j) = 32 := by
  intro f
  induction f with
  | zero => intro i rc j h; simp [mount_loop_go] at h
  | succ f ih =>
    intro i rc j h
    simp only [mount_loop_go] at h
    split at h
    · next h32 =>
      cases j with
      | zero => simpa using h32
      | succ j =>
        have := ih (i + 1) (rcs i) j (by simpa using Nat.lt_of_succ_lt_succ h)
        simpa [Nat.add_assoc, Nat.add_comm, Nat.add_left_comm] using this
    · simp at h

theorem mount_loop_go_sleeps (rcs : Nat → Int) :
    ∀ f i rc, ∃ m, (mount_loop_go rcs rc i f).2.1
      = (List.range m).map (fun k => i + k) := by
  intro f
  induction f with
  | zero => intro i rc; exact ⟨0, by simp [mount_loop_go]⟩
  | succ f ih =>
    intro i rc
    by_cases h32 : rcs i = 32
    · obtain ⟨m, hm⟩ := ih (i + 1) (rcs i)
      refine ⟨m + 1, ?_⟩
      simp only [mount_loop_go, if_pos h32]
      simp only [hm, List.range_succ_eq_map, List.map_cons, List.map_map]
      congr 1
      exact List.map_congr_left (fun a _ => by
        simp only [Function.comp_apply]
        omega)
    · exact ⟨0, by simp [mount_loop_go, if_neg h32]⟩

theorem mount_loop_go_result_last (rcs : Nat → Int) :
    ∀ f i rc, 1 ≤ (mount_loop_go rcs rc i f).2.2 →
      (mount_loop_go rcs rc i f).1
        = rcs (i + ((mount_loop_go rcs rc i f).2.2 - 1)) := by
  intro f
  induction f with
  | zero => intro i rc h; simp [mount_loop_go] at h
  | succ f ih =>
    intro i rc _
    simp only [mount_loop_go]
    split
    · next h32 =>
      by_cases hpos : 1 ≤ (mount_loop_go rcs (rcs i) (i + 1) f).2.2
      · have h := ih (i + 1) (rcs i) hpos
        simp only [h]
        congr 1
        omega
      · cases f with
        | zero => simp [mount_loop_go]
        | succ f =>
          exact absurd (mount_loop_go_attempts_pos rcs (f + 1) (i + 1) (rcs i)
            (by omega)) (by omega)
    · simp

theorem mount_loop_go_ok (rcs : Nat → Int) :
    ∀ f i rc k, k < f → (∀ j, j < k → rcs (i + j) = 32) → rcs (i + k) = 0 →
      (mount_loop_go rcs rc i f).1 = 0 := by
  intro f
  induction f with
  | zero => intro i rc k h; omega
  | succ f ih =>
    intro i rc k hk h32 h0
    simp only [mount_loop_go]
    cases k with
    | zero =>
      simp only [Nat.add_zero] at h0
      simp [h0]
    | succ k =>
      have hfirst : rcs i = 32 := by simpa using h32 0 (Nat.succ_pos k)
      simp only [hfirst, if_pos rfl]
      simp only [if_pos]
      exact ih (i + 1) 32 k (by omega)
        (fun j hj => by
          have := h32 (j + 1) (by omega)
          simpa [Nat.add_assoc, Nat.add_comm, Nat.add_left_comm] using this)
        (by simpa [Nat.add_assoc, Nat.add_comm, Nat.add_left_comm] using h0)

theorem mount_loop_go_all32 (rcs : Nat → Int) :
    ∀ f i rc, (∀ j, j < f → rcs (i + j) = 32) → 1 ≤ f →
      (mount_loop_go rcs rc i f).1 = 32 := by
  intro f
  induction f with
  | zero => intro i rc _ hf; omega
  | succ f ih =>
    intro i rc h _
    have hfirst : rcs i = 32 := by simpa using h 0 (Nat.succ_pos f)
    simp only [mount_loop_go]
    rw [if_pos hfirst]
    cases f with
    | zero => simpa [mount_loop_go] using hfirst
    | succ f =>
      exact ih (i + 1) (rcs i)
        (fun j hj => by
          have := h (j + 1) (by omega)
          simpa [Nat.add_assoc, Nat.add_comm, Nat.add_left_comm] using this)
        (by omega)

/-- C3: for every mount performed by `mount_in_guest`: at most 5 mount
attempts are made; a further attempt follows an attempt only when that
attempt returned exit code 32; the `k`-th sleep performed lasts `k`
seconds (so the backoff schedule is 0, 1, 2, 3, 4 seconds); four 32s
followed by a 0 give `Ok`; five 32s give an error; and a final attempt
returning a non-zero code other than 32 gives an error. -/
theorem mount_retry_law (mkdir_rc : Int) (rcs : Nat → Int) :
    (mount_in_guest mkdir_rc rcs).2.2 ≤ 5
    ∧ (∀ j, j + 1 < (mount_in_guest mkdir_rc rcs).2.2 → rcs j = 32)
    ∧ (mount_in_guest mkdir_rc rcs).2.1
        = List.range (mount_in_guest mkdir_rc rcs).2.1.length
    ∧ (mkdir_rc = 0 → ∀ k, k ≤ 4 → (∀ j, j < k → rcs j = 32) → rcs k = 0 →
        (mount_in_guest mkdir_rc rcs).1 = .ok ())
    ∧ (mkdir_rc = 0 → (∀ j, j < 5 → rcs j = 32) →
        (mount_in_guest mkdir_rc rcs).1 = .error "Failed to mount")
    ∧ (mkdir_rc = 0 → ∀ j, j + 1 = (mount_in_guest mkdir_rc rcs).2.2 →
        rcs j ≠ 0 → rcs j ≠ 32 →
        (mount_in_guest mkdir_rc rcs).1 = .error "Failed to mount") := by
  by_cases hmk : mkdir_rc = 0
  · have hdef : mount_in_guest mkdir_rc rcs
        = ((if (mount_loop rcs).1 ≠ 0 then .error "Failed to mount" else .ok ()),
           (mount_loop rcs).2.1, (mount_loop rcs).2.2) := by
      simp [mount_in_guest, hmk]
    refine ⟨?_, ?_, ?_, ?_, ?_, ?_⟩
    · rw [hdef]
      exact mount_loop_go_attempts_le rcs 5 0 0
    · intro j hj
      rw [hdef] at hj
      have := mount_loop_go_prev32 rcs 5 0 0 j (by simpa [mount_loop] using hj)
      simpa using this
    · rw [hdef]
      obtain ⟨m, hm⟩ := mount_loop_go_sleeps rcs 5 0 0
      have hm' : (mount_loop rcs).2.1 = List.range m := by
        simpa [mount_loop] using hm
      simp [hm']
    · intro _ k hk h32 h0
      rw [hdef]
      have : (mount_loop rcs).1 = 0 := by
        apply mount_loop_go_ok rcs 5 0 0 k (by omega)
        · intro j hj; simpa using h32 j hj
        · simpa using h0
      simp [this]
    · intro _ h32
      rw [hdef]
      have : (mount_loop rcs).1 = 32 := by
        simp only [mount_loop]
        exact mount_loop_go_all32 rcs 5 0 0
          (fun j hj => by simpa using h32 j hj) (by omega)
      simp [this]
    · intro _ j hj hne h32
      rw [hdef] at hj ⊢
      simp only [mount_loop] at hj
      have hpos : 1 ≤ (mount_loop_go rcs 0 0 5).2.2 := by omega
      have hlast := mount_loop_go_result_last rcs 5 0 0 hpos
      have hval : (mount_loop_go rcs 0 0 5).1 = rcs j := by
        rw [hlast]
        congr 1
        omega
      simp only [mount_loop]
      simp [hval, hne]
  · have hdef : mount_in_guest mkdir_rc rcs = (.error "Failed to mkdir", [], 0) := by
      simp [mount_in_guest, hmk]
    rw [hdef]
    refine ⟨by simp, by simp, by simp, ?_, ?_, ?_⟩
    · intro h; exact absurd h hmk
    · intro h; exact absurd h hmk
    · intro h; exact absurd h hmk

/-- Witness for C3: with `mkdir` succeeding and mount attempts returning
32, 32, 32, 32, 0, the function returns `Ok`. -/
theorem mount_retry_law_witness :
    (mount_in_guest 0 (fun n => if n < 4 then 32 else 0)).1 = .ok () :=
  (mount_retry_law 0 (fun n => if n < 4 then 32 else 0)).2.2.2.1
    rfl 4 (by omega) (fun j hj => by simp [hj]) (by simp)

/-! ## Guest command execution (`src/qemu.rs`, `run_in_vm` and
`Qemu::run_command`) -/

/-- Guest agent version triple (major/minor/patch, from the agent
handshake). -/
structure GuestAgentVersion where
  major : Nat
  minor : Nat
  patch : Nat
deriving DecidableEq

/-- The `capture_output` field of a `guest_exec` request:
`GuestExecCaptureOutput::mode(merged)` or
`GuestExecCaptureOutput::flag(b)` of the qapi crate. -/
inductive GuestExecCaptureOutput where
  | merged_mode
  | flag (b : Bool)
deriving DecidableEq

/-- The capture-mode selection of `run_in_vm` (`qemu.rs` lines 516-520):
merged output when `version.major >= 8 && version.minor >= 1`, separate
streams (`flag(true)`) otherwise. -/
def capture_output_for (version : GuestAgentVersion) : GuestExecCaptureOutput :=
  if 8 ≤ version.major ∧ 1 ≤ version.minor then .merged_mode
  else .flag true

/-- The spec's wording for when unified capture is requested: agent
version at least 8.1, i.e. major greater than 8, or major 8 and minor at
least 1. Stated separately from `capture_output_for` (which embeds the
code) so the two can be compared. -/
def spec_unified_capture (version : GuestAgentVersion) : Prop :=
  8 < version.major ∨ (version.major = 8 ∧ 1 ≤ version.minor)

/-- The `guest_exec` request assembled by `run_in_vm` (`qemu.rs` lines
509-527). -/
structure GuestExecRequest where
  path : String
  arg : List String
  capture_output : GuestExecCaptureOutput
  input_data : Option String
  env : Option (List String)
deriving DecidableEq

/-- Builds the `qga::guest_exec` request exactly as `run_in_vm` does:
capture mode from the agent version, `env` the host environment when
`propagate_env` is set and `None` otherwise. -/
def build_guest_exec (version : GuestAgentVersion) (cmd : String)
    (args : List String) (propagate_env : Bool) (host_env : List String) :
    GuestExecRequest :=
  { path := cmd
    arg := args
    capture_output := capture_output_for version
    input_data := none
    env := if propagate_env then some host_env else none }

/-- The `image` field of `Qemu` is `target.image.is_some()`
(`qemu.rs` line 668). -/
def qemu_image_flag (t : Target) : Bool := t.image.isSome

/-- `run_command` passes `propagate_env = !self.image` to `run_in_vm`
(`qemu.rs` lines 760-767). -/
def run_command_propagate_env (image : Bool) : Bool := !image

/-- C4: the claim states unified capture is requested iff the agent
version is at least 8.1 (major greater than 8, or major 8 with minor at
least 1). The code's test `major >= 8 && minor >= 1` disagrees at version
9.0: 9.0 is at least 8.1, yet the code requests separate streams. At 8.1
itself the code does request merged capture. -/
theorem capture_mode_at_version_9_0 :
    spec_unified_capture ⟨9, 0, 0⟩
    ∧ capture_output_for ⟨9, 0, 0⟩ = .flag true
    ∧ capture_output_for ⟨9, 0, 0⟩ ≠ .merged_mode
    ∧ capture_output_for ⟨8, 1, 0⟩ = .merged_mode := by
  refine ⟨Or.inl (by decide), ?_, ?_, ?_⟩
  · simp [capture_output_for]
  · simp [capture_output_for]
  · simp [capture_output_for]

/-- C7: the guest-exec request carries the host environment exactly when
the target is kernel-mode. `run_command` passes `propagate_env` true iff
no image is configured, and `run_in_vm` sets the request's `env` field to
the host environment iff `propagate_env` holds, `None` otherwise. -/
theorem env_propagation (t : Target) (v : GuestAgentVersion) (cmd : String)
    (args : List String) (host_env : List String) (p : Bool) :
    (run_command_propagate_env (qemu_image_flag t) = true ↔ t.image = none)
    ∧ ((build_guest_exec v cmd args p host_env).env = some host_env ↔ p = true)
    ∧ ((build_guest_exec v cmd args p host_env).env = none ↔ p = false)
    ∧ (build_guest_exec v cmd args
        (run_command_propagate_env (qemu_image_flag t)) host_env).env
      = (if t.image = none then some host_env else none) := by
  refine ⟨?_, ?_, ?_, ?_⟩
  · cases h : t.image <;> simp [run_command_propagate_env, qemu_image_flag, h]
  · cases p <;> simp [build_guest_exec]
  · cases p <;> simp [build_guest_exec]
  · cases h : t.image <;>
      simp [build_guest_exec, run_command_propagate_env, qemu_image_flag, h]

/-! ## Exec-status polling (`src/qemu.rs`, `run_in_vm` lines 539-565) -/

/-- The sleep period before the `n`-th doubling step: starts at 200 ms;
after each sleep the period doubles while it is at most
`Duration::from_secs(5) / 2` = 2500 ms, and stays unchanged otherwise. -/
def poll_period : Nat → Nat
  | 0 => 200
  | n + 1 =>
    if poll_period n ≤ 2500 then 2 * poll_period n else poll_period n

/-- One iteration of the polling loop, reduced to its control decisions:
the first component is whether the loop breaks (it breaks exactly on
`status.exited`), the second whether the 30-second warning fires
(`now.elapsed() >= Duration::from_secs(30)`, log only). -/
def poll_step (exited : Bool) (elapsed_ms : Nat) : Bool × Bool :=
  (exited, decide (30000 ≤ elapsed_ms))

/-- The index of the first poll whose status reports `exited`, searching
from `i` with `fuel` remaining polls (the source loop is unbounded; the
fuel only makes the search well-founded). -/
def poll_first_from (exited : Nat → Bool) (i : Nat) : Nat → Option Nat
  | 0 => none
  | f + 1 => if exited i then some i else poll_first_from exited (i + 1) f

/-- C8: the polling period starts at 200 ms, doubles while at most
2500 ms, is unchanged once beyond that, and never exceeds 5 s; the break
decision of an iteration is independent of the elapsed time; past 30 s
the warning fires but the loop still breaks only on `exited`; and the
poll that ends the loop is one whose status reports `exited`. -/
theorem poll_loop_law :
    poll_period 0 = 200
    ∧ (∀ n, poll_period n ≤ 2500 → poll_period (n + 1) = 2 * poll_period n)
    ∧ (∀ n, 2500 < poll_period n → poll_period (n + 1) = poll_period n)
    ∧ (∀ n, poll_period n ≤ 5000)
    ∧ (∀ x e1 e2, (poll_step x e1).1 = (poll_step x e2).1)
    ∧ (∀ x e, 30000 ≤ e → (poll_step x e).2 = true ∧ (poll_step x e).1 = x)
    ∧ (∀ exited i fuel n, poll_first_from exited i fuel = some n →
        exited n = true) := by
  refine ⟨rfl, ?_, ?_, ?_, ?_, ?_, ?_⟩
  · intro n h
    simp [poll_period, h]
  · intro n h
    simp [poll_period, Nat.not_le.mpr h, Nat.not_le_of_lt h]
  · intro n
    induction n with
    | zero => simp [poll_period]
    | succ n ih =>
      simp only [poll_period]
      split
      · omega
      · exact ih
  · intro x e1 e2
    simp [poll_step]
  · intro x e h
    simp [poll_step, h]
  · intro exited i fuel
    induction fuel generalizing i with
    | zero => intro n h; simp [poll_first_from] at h
    | succ f ih =>
      intro n h
      simp only [poll_first_from] at h
      split at h
      · next hx =>
        cases h
        exact hx
      · exact ih (i + 1) n h

/-- Witness for C8: concrete instances of the hypothesised parts — one
doubling step from 200 ms, the constancy step at 3200 ms, the warning at
31 s, and the first-exit search on a concrete schedule. -/
theorem poll_loop_law_witness :
    poll_period 1 = 2 * poll_period 0
    ∧ ((poll_step true 31000).2 = true ∧ (poll_step true 31000).1 = true)
    ∧ (fun n => n == 3) 3 = true :=
  ⟨poll_loop_law.2.1 0 (by decide),
   poll_loop_law.2.2.2.2.2.1 true 31000 (by omega),
   poll_loop_law.2.2.2.2.2.2 (fun n => n == 3) 0 5 3 (by decide)⟩

/-! ## Socket connection (`src/qemu.rs`, `Qemu::connect_to_uds`) -/

/-- Result of `connect_to_uds`: a stream connected to a path, or the
error of the final connection attempt at a path. -/
inductive UdsResult where
  | ok (path : String)
  | err (path : String)
deriving DecidableEq

/-- `connect_to_uds` (`qemu.rs` lines 701-717). The oracle
`connects n path` tells whether the `n`-th `UnixStream::connect` attempt
at `path` would succeed; `fuel` is the number of attempts that fit in the
5-second deadline. Within the deadline it retries `p`; after the deadline
the final attempt — the one whose result is returned — is made on
`self.qmp_sock`, not on `p`. -/
def connect_to_uds_aux (connects : Nat → String → Bool) (qmp_sock p : String) :
    Nat → Nat → UdsResult
  | i, 0 => if connects i qmp_sock then .ok qmp_sock else .err qmp_sock
  | i, f + 1 =>
    if connects i p then .ok p
    else connect_to_uds_aux connects qmp_sock p (i + 1) f

/-- `connect_to_uds` starting from the first attempt. -/
def connect_to_uds (connects : Nat → String → Bool) (fuel : Nat)
    (qmp_sock p : String) : UdsResult :=
  connect_to_uds_aux connects qmp_sock p 0 fuel

theorem connect_to_uds_aux_all_fail (connects : Nat → String → Bool)
    (qmp_sock p : String) :
    ∀ fuel i, (∀ j, j < fuel → connects (i + j) p = false) →
      connect_to_uds_aux connects qmp_sock p i fuel
        = (if connects (i + fuel) qmp_sock then .ok qmp_sock
           else .err qmp_sock) := by
  intro fuel
  induction fuel with
  | zero => intro i _; simp [connect_to_uds_aux]
  | succ f ih =>
    intro i h
    have h0 : connects i p = false := by simpa using h 0 (Nat.succ_pos f)
    simp only [connect_to_uds_aux, h0, Bool.false_eq_true, if_false]
    have := ih (i + 1) (fun j hj => by
      have := h (j + 1) (by omega)
      simpa [Nat.add_assoc, Nat.add_comm, Nat.add_left_comm] using this)
    rw [this]
    have harg : i + 1 + f = i + (f + 1) := by omega
    rw [harg]

/-- C9: if every in-deadline attempt to connect to `p` fails, the final
attempt — whose result the caller receives — is made on the QMP socket
path, regardless of `p`; so after a timeout the returned value (stream
or error) refers to the QMP socket, not to the requested path. -/
theorem connect_to_uds_timeout_uses_qmp_sock (connects : Nat → String → Bool)
    (fuel : Nat) (qmp_sock p : String)
    (h : ∀ j, j < fuel → connects j p = false) :
    connect_to_uds connects fuel qmp_sock p
      = (if connects fuel qmp_sock then .ok qmp_sock else .err qmp_sock) := by
  unfold connect_to_uds
  have := connect_to_uds_aux_all_fail connects qmp_sock p fuel 0
    (fun j hj => by simpa using h j hj)
  simpa using this

/-- Witness for C9: the command-output socket never connects, the QMP
socket does; after the deadline the caller gets a stream connected to the
QMP socket path. -/
theorem connect_to_uds_timeout_uses_qmp_sock_witness :
    connect_to_uds (fun _ s => s == "/tmp/qmp-100000.sock") 3
      "/tmp/qmp-100000.sock" "/tmp/cmdout-100000.sock"
      = .ok "/tmp/qmp-100000.sock" := by
  have := connect_to_uds_timeout_uses_qmp_sock
    (fun _ s => s == "/tmp/qmp-100000.sock") 3
    "/tmp/qmp-100000.sock" "/tmp/cmdout-100000.sock"
    (fun j _ => rfl)
  simpa using this

/-! ## Exit-code extraction (`src/qemu.rs`, `run_in_vm` line 590 and
`Qemu::run` lines 1008-1019) -/

/-- The `guest-exec-status` reply (qapi `GuestExecStatus`), with the
fields `run_in_vm` reads. -/
structure GuestExecStatus where
  exited : Bool
  exitcode : Option Int
  out_data : Option String
  out_truncated : Option Bool
  err_data : Option String
  err_truncated : Option Bool
deriving DecidableEq

/-- The value `run_in_vm` returns once the status loop has broken:
`status.exitcode.unwrap_or(0)` (`qemu.rs` line 590). -/
def run_in_vm_exitcode (status : GuestExecStatus) : Int :=
  status.exitcode.getD 0

/-- A `RunEnv` in which every stage succeeds and the command stage
returns `r` (used to express how `Qemu::run` reports a command
result). -/
def happy_env (r : Option Int) : RunEnv :=
  ⟨true, true, true, true, true, true, [], r⟩

/-- C10: an exec-status reply with `exited = true` and no `exitcode`
field makes `run_in_vm` return `Ok(0)`, and the run then ends with
`CommandEnd(Ok(0))` — indistinguishable from a successful command and
never a harness error. -/
theorem missing_exitcode_reports_ok_zero (st : GuestExecStatus)
    (_hex : st.exited = true) (hcode : st.exitcode = none) :
    run_in_vm_exitcode st = 0
    ∧ qemu_run (happy_env (some (run_in_vm_exitcode st)))
      = [Event.bootStart, Event.bootEnd true, Event.setupStart,
         Event.setupEnd true, Event.commandStart,
         Event.commandEnd (some 0)] := by
  have h0 : run_in_vm_exitcode st = 0 := by
    simp [run_in_vm_exitcode, hcode]
  refine ⟨h0, ?_⟩
  rw [h0]
  rfl

/-- Witness for C10 at a concrete exited status with no exit code. -/
theorem missing_exitcode_reports_ok_zero_witness :
    run_in_vm_exitcode ⟨true, none, none, none, none, none⟩ = 0
    ∧ qemu_run (happy_env
        (some (run_in_vm_exitcode ⟨true, none, none, none, none, none⟩)))
      = [Event.bootStart, Event.bootEnd true, Event.setupStart,
         Event.setupEnd true, Event.commandStart,
         Event.commandEnd (some 0)] :=
  missing_exitcode_reports_ok_zero ⟨true, none, none, none, none, none⟩ rfl rfl

end Vmtest
